import Mathlib

/-!
# Verification of the `Address` wire-format codec (`src/protocol/address.rs`)

Shallow embedding of the SOCKS5-style address codec from the repository
`ssrlive/socks5-impl`. Byte buffers and streams are modelled as `List Nat`
whose elements stand for `u8` values; `u16` values are `Nat` with explicit
big-endian byte splitting. Fallible operations return explicit result types;
the one place where the Rust code can panic (an unchecked slice index in
`Address::from_data`) is modelled by a dedicated `panicked` outcome.
-/

namespace Socks5

/-- Model of `std::net::SocketAddr`: a resolved IPv4 or IPv6 endpoint with a
port. The numeric fields are carried as `Nat` with the `u8` / `u16` / `u32`
ranges imposed as hypotheses where they matter. The `v6` variant carries
`SocketAddrV6`'s `flowinfo` and `scope_id` fields as well: they participate
in the derived equality of `SocketAddr` (and hence of `Address`), are never
written by the codec, and are zeroed when decoding builds an address via
`SocketAddr::from((Ipv6Addr, u16))`. -/
inductive SockAddr where
  | v4 (a b c d : Nat) (port : Nat)
  | v6 (s0 s1 s2 s3 s4 s5 s6 s7 : Nat) (port : Nat) (flowinfo scope_id : Nat)
deriving DecidableEq

/-- Model of `enum Address`: `SocketAddress(SocketAddr)` or
`DomainAddress(String, u16)`. The Rust `String` is modelled by its UTF-8 byte
sequence (a `List Nat`); `validUtf8` below characterises which byte lists
correspond to actual strings. -/
inductive Address where
  | SocketAddress (sa : SockAddr)
  | DomainAddress (name : List Nat) (port : Nat)
deriving DecidableEq

/-- Model of the `std::io::Error` values the codec produces: end-of-input
(`ErrorKind::UnexpectedEof` from the cursor / stream), the unsupported
address-type error carrying the offending tag byte, the invalid-data error for
non-UTF-8 domain bytes, and the unsupported error naming an unresolvable
domain (from `TryFrom<Address> for SocketAddr`). -/
inductive IOErr where
  | eof
  | unsupportedTag (t : Nat)
  | invalidData
  | unsupportedDomain (name : List Nat)
deriving DecidableEq

/-- Outcome of `Address::from_data`: success, a clean error, or a Rust panic
(out-of-bounds slice index). -/
inductive DecodeResult where
  | ok (a : Address)
  | err (e : IOErr)
  | panicked
deriving DecidableEq

/-- Outcome of `Address::addr_data_from_stream`: on success the owned buffer
of bytes read plus the not-yet-consumed remainder of the stream; otherwise an
error. -/
inductive StreamResult where
  | ok (data : List Nat) (rest : List Nat)
  | error (e : IOErr)
deriving DecidableEq

/-- Outcome of `TryFrom<Address> for SocketAddr`. -/
inductive ConvertResult where
  | ok (sa : SockAddr)
  | error (e : IOErr)
deriving DecidableEq

/-- Big-endian byte pair of a `u16`, as emitted by `BufMut::put_u16`. -/
def put_u16 (p : Nat) : List Nat := [p / 256 % 256, p % 256]

/-- Rust `core::str` UTF-8 validation (`run_utf8_validation`), the check behind
`String::from_utf8`: ASCII; 2-byte sequences `C2..DF` + continuation; 3-byte
sequences excluding overlongs (`E0` needs `A0..BF`) and surrogates (`ED` needs
`80..9F`); 4-byte sequences excluding overlongs (`F0` needs `90..BF`) and
values past U+10FFFF (`F4` needs `80..8F`). -/
def validUtf8 : List Nat → Bool
  | [] => true
  | b :: rest =>
    if b ≤ 0x7F then validUtf8 rest
    else if 0xC2 ≤ b ∧ b ≤ 0xDF then
      match rest with
      | c :: r => if 0x80 ≤ c ∧ c ≤ 0xBF then validUtf8 r else false
      | [] => false
    else if b = 0xE0 then
      match rest with
      | c1 :: c2 :: r =>
        if (0xA0 ≤ c1 ∧ c1 ≤ 0xBF) ∧ (0x80 ≤ c2 ∧ c2 ≤ 0xBF) then validUtf8 r else false
      | _ => false
    else if 0xE1 ≤ b ∧ b ≤ 0xEC then
      match rest with
      | c1 :: c2 :: r =>
        if (0x80 ≤ c1 ∧ c1 ≤ 0xBF) ∧ (0x80 ≤ c2 ∧ c2 ≤ 0xBF) then validUtf8 r else false
      | _ => false
    else if b = 0xED then
      match rest with
      | c1 :: c2 :: r =>
        if (0x80 ≤ c1 ∧ c1 ≤ 0x9F) ∧ (0x80 ≤ c2 ∧ c2 ≤ 0xBF) then validUtf8 r else false
      | _ => false
    else if 0xEE ≤ b ∧ b ≤ 0xEF then
      match rest with
      | c1 :: c2 :: r =>
        if (0x80 ≤ c1 ∧ c1 ≤ 0xBF) ∧ (0x80 ≤ c2 ∧ c2 ≤ 0xBF) then validUtf8 r else false
      | _ => false
    else if b = 0xF0 then
      match rest with
      | c1 :: c2 :: c3 :: r =>
        if (0x90 ≤ c1 ∧ c1 ≤ 0xBF) ∧ (0x80 ≤ c2 ∧ c2 ≤ 0xBF) ∧ (0x80 ≤ c3 ∧ c3 ≤ 0xBF) then
          validUtf8 r
        else false
      | _ => false
    else if 0xF1 ≤ b ∧ b ≤ 0xF3 then
      match rest with
      | c1 :: c2 :: c3 :: r =>
        if (0x80 ≤ c1 ∧ c1 ≤ 0xBF) ∧ (0x80 ≤ c2 ∧ c2 ≤ 0xBF) ∧ (0x80 ≤ c3 ∧ c3 ≤ 0xBF) then
          validUtf8 r
        else false
      | _ => false
    else if b = 0xF4 then
      match rest with
      | c1 :: c2 :: c3 :: r =>
        if (0x80 ≤ c1 ∧ c1 ≤ 0x8F) ∧ (0x80 ≤ c2 ∧ c2 ≤ 0xBF) ∧ (0x80 ≤ c3 ∧ c3 ≤ 0xBF) then
          validUtf8 r
        else false
      | _ => false
    else false

/-- `Address::from_data(data: &[u8]) -> Result<Address>`. A cursor reads the
tag; tag `0x01` reads 4 octets and a big-endian port; tag `0x03` reads the
length byte, then takes the slice `data[2..2 + len + 2]` — which in Rust
panics when `data` is shorter than `2 + len + 2` (modelled by `panicked`) —
reads the port from its last two bytes, truncates to the name bytes and
validates them as UTF-8; tag `0x04` reads 8 big-endian segments and a port;
any other tag yields the unsupported-address-type error. A cursor read past
the end yields the end-of-input error. -/
def from_data : List Nat → DecodeResult
  | 1 :: a :: b :: c :: d :: p1 :: p2 :: _ =>
      .ok (.SocketAddress (.v4 a b c d (p1 * 256 + p2)))
  | 1 :: _ => .err .eof
  | 3 :: len :: rest2 =>
      if len + 2 ≤ rest2.length then
        if validUtf8 ((rest2.take (len + 2)).take len) then
          .ok (.DomainAddress ((rest2.take (len + 2)).take len)
            ((rest2.take (len + 2)).getD len 0 * 256 + (rest2.take (len + 2)).getD (len + 1) 0))
        else .err .invalidData
      else .panicked
  | [3] => .err .eof
  | 4 :: b0 :: b1 :: b2 :: b3 :: b4 :: b5 :: b6 :: b7 :: b8 :: b9 :: b10 :: b11 :: b12 :: b13
      :: b14 :: b15 :: p1 :: p2 :: _ =>
      .ok (.SocketAddress (.v6 (b0 * 256 + b1) (b2 * 256 + b3) (b4 * 256 + b5) (b6 * 256 + b7)
        (b8 * 256 + b9) (b10 * 256 + b11) (b12 * 256 + b13) (b14 * 256 + b15)
        (p1 * 256 + p2) 0 0))
  | 4 :: _ => .err .eof
  | [] => .err .eof
  | atyp :: _ => .err (.unsupportedTag atyp)

/-- `Address::addr_data_from_stream`: read the tag byte; for tag `0x01` read 6
more bytes, for tag `0x04` read 18 more, for tag `0x03` read the length byte
and then `len + 2` more; return the full tag-plus-payload byte sequence and
leave the rest of the stream unconsumed. Any other tag fails immediately with
the unsupported-address-type error; a stream that ends early fails with the
end-of-input error from `read_u8` / `read_exact`. -/
def addr_data_from_stream : List Nat → StreamResult
  | [] => .error .eof
  | 1 :: rest =>
      if 6 ≤ rest.length then .ok (1 :: rest.take 6) (rest.drop 6) else .error .eof
  | 3 :: len :: rest2 =>
      if len + 2 ≤ rest2.length then .ok (3 :: len :: rest2.take (len + 2)) (rest2.drop (len + 2))
      else .error .eof
  | [3] => .error .eof
  | 4 :: rest =>
      if 18 ≤ rest.length then .ok (4 :: rest.take 18) (rest.drop 18) else .error .eof
  | atyp :: _ => .error (.unsupportedTag atyp)

/-- `Address::write_to_buf`: tag byte, then the payload, then the big-endian
port. For a domain the length byte is `addr.len() as u8` — a truncating cast,
modelled by `% 256` — followed by the whole name byte slice. For IPv6 only
`ip().segments()` and `port()` are written: `flowinfo` and `scope_id` are
dropped. -/
def write_to_buf : Address → List Nat
  | .SocketAddress (.v4 a b c d port) => 1 :: a :: b :: c :: d :: put_u16 port
  | .SocketAddress (.v6 s0 s1 s2 s3 s4 s5 s6 s7 port _ _) =>
      4 :: (put_u16 s0 ++ put_u16 s1 ++ put_u16 s2 ++ put_u16 s3 ++ put_u16 s4 ++ put_u16 s5
        ++ put_u16 s6 ++ put_u16 s7 ++ put_u16 port)
  | .DomainAddress name port => 3 :: name.length % 256 :: (name ++ put_u16 port)

/-- `Address::serialized_len`. -/
def serialized_len : Address → Nat
  | .SocketAddress (.v4 _ _ _ _ _) => 1 + 6
  | .SocketAddress (.v6 _ _ _ _ _ _ _ _ _ _ _) => 1 + 18
  | .DomainAddress name _ => 1 + (1 + name.length + 2)

/-- `Address::max_serialized_len`: `1 + 1 + u8::MAX as usize + 2`. -/
def max_serialized_len : Nat := 1 + 1 + 255 + 2

/-- `From<(String, u16)> for Address` (and `From<(&str, u16)>`): wraps the
pair as a `DomainAddress` with no validation of the name length. -/
def from_string_port (name : List Nat) (port : Nat) : Address :=
  .DomainAddress name port

/-- Length of the domain name carried by an `Address` (0 for socket
addresses); used to state the name-length invariant. -/
def domain_name_length : Address → Nat
  | .DomainAddress name _ => name.length
  | .SocketAddress _ => 0

/-! ## IP-literal parsing (Rust `core::net::parser`)

`TryFrom<Address> for SocketAddr` calls `str::parse::<Ipv4Addr>` and
`str::parse::<Ipv6Addr>`; the following definitions embed the standard
library's parser. The input is the string's byte sequence (only ASCII bytes
can ever be accepted, so bytes and chars coincide on every accepted input). -/

/-- `char::to_digit(radix)` on an ASCII byte. -/
def to_digit (radix : Nat) (b : Nat) : Option Nat :=
  if 48 ≤ b ∧ b ≤ 57 then
    let d := b - 48
    if d < radix then some d else none
  else if 97 ≤ b ∧ b ≤ 122 then
    let d := b - 97 + 10
    if d < radix then some d else none
  else if 65 ≤ b ∧ b ≤ 90 then
    let d := b - 65 + 10
    if d < radix then some d else none
  else none

/-- Greedily split the leading digits (in the given radix) off a byte list. -/
def take_digits (radix : Nat) : List Nat → (List Nat × List Nat)
  | [] => ([], [])
  | b :: rest =>
    match to_digit radix b with
    | some d =>
      match take_digits radix rest with
      | (ds, r) => (d :: ds, r)
    | none => ([], b :: rest)

/-- `Parser::read_number(radix, max_digits, allow_zero_prefix)` over an
integer type with maximum value `maxVal` (`255` for `u8` octets, `65535` for
`u16` groups): consume the leading digits; fail if there are none, if they
exceed `max_digits`, if a forbidden leading zero is present, or if the value
overflows the integer type (checked arithmetic). -/
def read_number (radix : Nat) (maxDigits : Option Nat) (allowZeroPrefix : Bool) (maxVal : Nat)
    (s : List Nat) : Option (Nat × List Nat) :=
  match take_digits radix s with
  | (ds, r) =>
    if ds.isEmpty then none
    else if (match maxDigits with | some m => decide (m < ds.length) | none => false) then none
    else if !allowZeroPrefix && ds.headD 0 == 0 && 1 < ds.length then none
    else
      let v := ds.foldl (fun acc d => acc * radix + d) 0
      if v ≤ maxVal then some (v, r) else none

/-- `Parser::read_separator(sep, index, inner)`: every group but the first is
preceded by the separator byte. -/
def read_separator (sep : Nat) (i : Nat) (inner : List Nat → Option (α × List Nat))
    (s : List Nat) : Option (α × List Nat) :=
  if i = 0 then inner s
  else
    match s with
    | c :: r => if c = sep then inner r else none
    | [] => none

/-- `Parser::read_ipv4_addr`: four dot-separated decimal octets, each at most
3 digits, no leading zeros, value at most 255. -/
def read_ipv4_addr (s : List Nat) : Option ((Nat × Nat × Nat × Nat) × List Nat) := do
  let (g0, s) ← read_separator 46 0 (read_number 10 (some 3) false 255) s
  let (g1, s) ← read_separator 46 1 (read_number 10 (some 3) false 255) s
  let (g2, s) ← read_separator 46 2 (read_number 10 (some 3) false 255) s
  let (g3, s) ← read_separator 46 3 (read_number 10 (some 3) false 255) s
  pure ((g0, g1, g2, g3), s)

/-- `read_groups` from `Parser::read_ipv6_addr`: read up to `n` further
colon-separated 16-bit hex groups starting at separator index `i`; when at
least two slots remain, first try a trailing embedded IPv4 address, which
fills two groups and stops the scan with the flag set. Returns the groups
read, the remaining input, and the embedded-IPv4 flag. -/
def read_groups : Nat → Nat → List Nat → (List Nat × List Nat × Bool)
  | _, 0, s => ([], s, false)
  | i, n + 1, s =>
    match (if 1 ≤ n then read_separator 58 i read_ipv4_addr s else none) with
    | some ((a, b, c, d), r) => ([a * 256 + b, c * 256 + d], r, true)
    | none =>
      match read_separator 58 i (read_number 16 (some 4) true 65535) s with
      | some (g, r) =>
        match read_groups (i + 1) n r with
        | (gs, r2, f) => (g :: gs, r2, f)
      | none => ([], s, false)

/-- `Parser::read_ipv6_addr`: read head groups; a full set of 8 is an
address; otherwise an embedded IPv4 is not allowed before `::`, a literal
`::` must follow, and the tail groups (at most `8 - head - 1`) fill the end,
with zeros in between. Returns the 8 segments and the remaining input. -/
def read_ipv6_addr (s : List Nat) : Option (List Nat × List Nat) :=
  match read_groups 0 8 s with
  | (head, r, headIpv4) =>
    if head.length = 8 then some (head, r)
    else if headIpv4 then none
    else
      match r with
      | 58 :: 58 :: r2 =>
        let limit := 8 - (head.length + 1)
        match read_groups 0 limit r2 with
        | (tail, r3, _) =>
          some (head ++ List.replicate (8 - head.length - tail.length) 0 ++ tail, r3)
      | _ => none

/-- `str::parse::<Ipv4Addr>`: the whole string must be consumed. -/
def parse_ipv4 (s : List Nat) : Option (Nat × Nat × Nat × Nat) :=
  match read_ipv4_addr s with
  | some (v, []) => some v
  | _ => none

/-- `str::parse::<Ipv6Addr>`: the whole string must be consumed. -/
def parse_ipv6 (s : List Nat) : Option (List Nat) :=
  match read_ipv6_addr s with
  | some (v, []) => some v
  | _ => none

/-- `TryFrom<Address> for SocketAddr`: identity on `SocketAddress`; for
`DomainAddress` try the name as an IPv4 literal, then as an IPv6 literal, and
otherwise fail with the unsupported error naming the domain. -/
def try_from_address : Address → ConvertResult
  | .SocketAddress sa => .ok sa
  | .DomainAddress name port =>
    match parse_ipv4 name with
    | some (a, b, c, d) => .ok (.v4 a b c d port)
    | none =>
      match parse_ipv6 name with
      | some [s0, s1, s2, s3, s4, s5, s6, s7] => .ok (.v6 s0 s1 s2 s3 s4 s5 s6 s7 port 0 0)
      | _ => .error (.unsupportedDomain name)

/-! ## Helper lemmas -/

/-- Decoding a well-shaped domain buffer (`len` matching the name, the two
port bytes present, any trailing bytes): the result depends only on UTF-8
validity of the name. -/
lemma from_data_domain_eq (len : Nat) (name : List Nat) (p1 p2 : Nat) (extra : List Nat)
    (hlen : name.length = len) :
    from_data (3 :: len :: (name ++ p1 :: p2 :: extra)) =
      if validUtf8 name = true then .ok (.DomainAddress name (p1 * 256 + p2))
      else .err .invalidData := by
  subst hlen
  have hbuf : (name ++ p1 :: p2 :: extra).take (name.length + 2) = name ++ [p1, p2] := by
    rw [List.take_append_eq_append_take, List.take_of_length_le (by omega)]
    simp
  simp only [from_data]
  rw [if_pos (by simp only [List.length_append, List.length_cons]; omega), hbuf]
  rw [List.getD_append_right _ _ _ _ (by omega), List.getD_append_right _ _ _ _ (by omega)]
  rw [List.take_append_of_le_length (le_refl _), List.take_length]
  simp

/-! ## Claim theorems -/

/-- C2. The claim says `from_data` fails cleanly on every truncated buffer
and in particular returns a short-read error on `[0x03, 0x05, 0x61, 0x62]`.
The code instead takes the unchecked slice `data[2..2 + len + 2]` and
panics there: this theorem evaluates the embedded code at the claimed
failing input and shows the panic outcome. -/
theorem from_data_truncated_domain_panics :
    from_data [3, 5, 97, 98] = DecodeResult.panicked := by
  decide

/-- C4. Any tag byte other than `0x01`, `0x03`, `0x04` makes `from_data`
fail with the unsupported-address-type error carrying the tag, and makes
`addr_data_from_stream` fail with the same error kind irrespective of what
follows in the stream (in particular on a stream holding nothing beyond the
tag, so no further byte is ever required). -/
theorem unsupported_tag_rejected :
    (∀ t rest, t ≠ 1 → t ≠ 3 → t ≠ 4 →
      from_data (t :: rest) = .err (.unsupportedTag t)) ∧
    (∀ t rest, t ≠ 1 → t ≠ 3 → t ≠ 4 →
      addr_data_from_stream (t :: rest) = .error (.unsupportedTag t)) := by
  constructor <;>
    · intro t rest h1 h3 h4
      match t, h1, h3, h4 with
      | 0, _, _, _ => rfl
      | 2, _, _, _ => rfl
      | n + 5, _, _, _ => rfl

/-- C4 witness: tag `0x02` with an empty remainder is rejected by both
entry points. -/
theorem unsupported_tag_rejected_witness :
    (2 : Nat) ≠ 1 ∧ (2 : Nat) ≠ 3 ∧ (2 : Nat) ≠ 4 ∧
      from_data [2] = .err (.unsupportedTag 2) ∧
      addr_data_from_stream [2] = .error (.unsupportedTag 2) :=
  ⟨by decide, by decide, by decide,
    unsupported_tag_rejected.1 2 [] (by decide) (by decide) (by decide),
    unsupported_tag_rejected.2 2 [] (by decide) (by decide) (by decide)⟩

/-- C5. A tag-`0x03` buffer whose declared name bytes (and the following
port bytes) are present but are not valid UTF-8 makes `from_data` fail with
the invalid-data error, whatever trailing bytes follow. -/
theorem invalid_utf8_rejected :
    ∀ (name : List Nat) (p1 p2 : Nat) (extra : List Nat), name.length ≤ 255 →
      validUtf8 name = false →
      from_data (3 :: name.length :: (name ++ p1 :: p2 :: extra)) = .err .invalidData := by
  intro name p1 p2 extra _ hutf
  rw [from_data_domain_eq name.length name p1 p2 extra rfl, hutf]
  simp

/-- C5 witness: the lone continuation byte `0x80` is not valid UTF-8, so the
buffer `[0x03, 0x01, 0x80, 0x00, 0x50]` is rejected as invalid data. -/
theorem invalid_utf8_rejected_witness :
    ([128] : List Nat).length ≤ 255 ∧ validUtf8 [128] = false ∧
      from_data [3, 1, 128, 0, 80] = .err .invalidData :=
  ⟨by decide, by decide, invalid_utf8_rejected [128] 0 80 [] (by decide) (by decide)⟩

/-- C6. `addr_data_from_stream` reads exactly one tag byte plus the number
of bytes the tag requires — 6 more for tag `0x01`, 18 more for tag `0x04`,
and for tag `0x03` one length byte and then `len + 2` more (2 + len + 2
bytes in total including the tag) — and returns exactly the bytes read, in
order, leaving the remainder of the stream untouched. -/
theorem addr_data_from_stream_exact :
    (∀ rest : List Nat, 6 ≤ rest.length →
      addr_data_from_stream (1 :: rest) = .ok (1 :: rest.take 6) (rest.drop 6) ∧
      (1 :: rest.take 6).length = 1 + 6 ∧
      (1 :: rest.take 6) ++ rest.drop 6 = 1 :: rest) ∧
    (∀ (len : Nat) (rest2 : List Nat), len + 2 ≤ rest2.length →
      addr_data_from_stream (3 :: len :: rest2) =
        .ok (3 :: len :: rest2.take (len + 2)) (rest2.drop (len + 2)) ∧
      (3 :: len :: rest2.take (len + 2)).length = 2 + len + 2 ∧
      (3 :: len :: rest2.take (len + 2)) ++ rest2.drop (len + 2) = 3 :: len :: rest2) ∧
    (∀ rest : List Nat, 18 ≤ rest.length →
      addr_data_from_stream (4 :: rest) = .ok (4 :: rest.take 18) (rest.drop 18) ∧
      (4 :: rest.take 18).length = 1 + 18 ∧
      (4 :: rest.take 18) ++ rest.drop 18 = 4 :: rest) := by
  refine ⟨fun rest h => ⟨?_, ?_, ?_⟩, fun len rest2 h => ⟨?_, ?_, ?_⟩,
    fun rest h => ⟨?_, ?_, ?_⟩⟩
  · simp [addr_data_from_stream, if_pos h]
  · simp [List.length_take]; omega
  · simp [List.take_append_drop]
  · simp [addr_data_from_stream, if_pos h]
  · simp [List.length_take]; omega
  · simp [List.take_append_drop]
  · simp [addr_data_from_stream, if_pos h]
  · simp [List.length_take]; omega
  · simp [List.take_append_drop]

/-- C6 witness: a stream holding a 7-byte IPv4 encoding followed by two
extra bytes is read to exactly the first 7 bytes. -/
theorem addr_data_from_stream_exact_witness :
    6 ≤ ([127, 0, 0, 1, 31, 144, 9, 9] : List Nat).length ∧
      addr_data_from_stream (1 :: [127, 0, 0, 1, 31, 144, 9, 9]) =
        .ok [1, 127, 0, 0, 1, 31, 144] [9, 9] :=
  ⟨by decide, by
    have h := (addr_data_from_stream_exact.1 [127, 0, 0, 1, 31, 144, 9, 9] (by decide)).1
    simpa using h⟩

/-- C9. Decoding any buffer with tag `0x03` that succeeds yields a
`DomainAddress`, never a `SocketAddress` — even when the name would parse as
an IP literal; no canonicalization happens during decode. -/
theorem no_canonicalization_on_decode :
    ∀ (rest : List Nat) (a : Address), from_data (3 :: rest) = .ok a →
      ∃ n p, a = .DomainAddress n p := by
  intro rest a h
  rcases rest with _ | ⟨len, rest2⟩
  · simp [from_data] at h
  · simp only [from_data] at h
    split at h
    · split at h
      · exact ⟨_, _, (DecodeResult.ok.injEq _ _).mp h.symm⟩
      · simp at h
    · simp at h

/-- C9 witness: the buffer encoding the domain name `127.0.0.1` (which
parses as an IPv4 literal) with port 80 decodes to a `DomainAddress`. -/
theorem no_canonicalization_on_decode_witness :
    from_data (3 :: (9 :: ([49, 50, 55, 46, 48, 46, 48, 46, 49] ++ [0, 80]))) =
        .ok (.DomainAddress [49, 50, 55, 46, 48, 46, 48, 46, 49] 80) ∧
      ∃ n p, Address.DomainAddress [49, 50, 55, 46, 48, 46, 48, 46, 49] 80 =
        .DomainAddress n p :=
  ⟨by decide,
    no_canonicalization_on_decode (9 :: ([49, 50, 55, 46, 48, 46, 48, 46, 49] ++ [0, 80]))
      (.DomainAddress [49, 50, 55, 46, 48, 46, 48, 46, 49] 80) (by decide)⟩

set_option maxRecDepth 40000 in
/-- C1 counterexample, two independent failures of the round-trip claim as
stated. First, a `DomainAddress` with a 256-byte name is constructible (the
`From` impls do not bound the name), but its length byte is the truncating
cast `addr.len() as u8` = 0, so decoding the written bytes yields the
empty-named domain with a garbage port. Second, an IPv6 socket address with
a nonzero `flowinfo` (here `SocketAddrV6::new(::1, 53, 1, 0)`) is
constructible, but `write_to_buf` drops `flowinfo`/`scope_id` and decoding
rebuilds the address with both zeroed, so the decoded value differs from
the original under the derived equality. -/
theorem write_from_data_roundtrip_cex :
    (from_data (write_to_buf (.DomainAddress (List.replicate 256 97) 80)) ≠
      .ok (.DomainAddress (List.replicate 256 97) 80)) ∧
    (from_data (write_to_buf (.SocketAddress (.v6 0 0 0 0 0 0 0 1 53 1 0))) ≠
      .ok (.SocketAddress (.v6 0 0 0 0 0 0 0 1 53 1 0))) := by
  decide

/-- C1 (amended). Round-trip holds for every constructible `Address` whose
domain name — a valid UTF-8 string, as the Rust `String` type guarantees —
is at most 255 bytes long, and whose IPv6 `flowinfo` and `scope_id` (fields
the wire format cannot carry) are zero: decoding the bytes written for such
a value returns the value itself, for all three variants (numeric fields
within their `u8`/`u16` ranges). -/
theorem write_from_data_roundtrip :
    (∀ a b c d p : Nat, a < 256 → b < 256 → c < 256 → d < 256 → p < 65536 →
      from_data (write_to_buf (.SocketAddress (.v4 a b c d p))) =
        .ok (.SocketAddress (.v4 a b c d p))) ∧
    (∀ s0 s1 s2 s3 s4 s5 s6 s7 p : Nat, s0 < 65536 → s1 < 65536 → s2 < 65536 →
      s3 < 65536 → s4 < 65536 → s5 < 65536 → s6 < 65536 → s7 < 65536 → p < 65536 →
      from_data (write_to_buf (.SocketAddress (.v6 s0 s1 s2 s3 s4 s5 s6 s7 p 0 0))) =
        .ok (.SocketAddress (.v6 s0 s1 s2 s3 s4 s5 s6 s7 p 0 0))) ∧
    (∀ (name : List Nat) (p : Nat), name.length ≤ 255 → validUtf8 name = true →
      p < 65536 →
      from_data (write_to_buf (.DomainAddress name p)) = .ok (.DomainAddress name p)) := by
  refine ⟨fun a b c d p _ _ _ _ _ => ?_,
    fun s0 s1 s2 s3 s4 s5 s6 s7 p _ _ _ _ _ _ _ _ _ => ?_,
    fun name p hlen hutf _ => ?_⟩
  · simp only [write_to_buf, put_u16, from_data]
    rw [show p / 256 % 256 * 256 + p % 256 = p from by omega]
  · simp only [write_to_buf, put_u16, List.cons_append, List.nil_append, from_data]
    rw [show s0 / 256 % 256 * 256 + s0 % 256 = s0 from by omega,
      show s1 / 256 % 256 * 256 + s1 % 256 = s1 from by omega,
      show s2 / 256 % 256 * 256 + s2 % 256 = s2 from by omega,
      show s3 / 256 % 256 * 256 + s3 % 256 = s3 from by omega,
      show s4 / 256 % 256 * 256 + s4 % 256 = s4 from by omega,
      show s5 / 256 % 256 * 256 + s5 % 256 = s5 from by omega,
      show s6 / 256 % 256 * 256 + s6 % 256 = s6 from by omega,
      show s7 / 256 % 256 * 256 + s7 % 256 = s7 from by omega,
      show p / 256 % 256 * 256 + p % 256 = p from by omega]
  · have hmod : name.length % 256 = name.length := Nat.mod_eq_of_lt (by omega)
    simp only [write_to_buf, put_u16, hmod]
    rw [from_data_domain_eq name.length name (p / 256 % 256) (p % 256) [] rfl, if_pos hutf]
    rw [show p / 256 % 256 * 256 + p % 256 = p from by omega]

/-- C1 witness: the spec's scenario 2, `DomainAddress("example.com", 443)`,
round-trips. -/
theorem write_from_data_roundtrip_witness :
    ([101, 120, 97, 109, 112, 108, 101, 46, 99, 111, 109] : List Nat).length ≤ 255 ∧
      validUtf8 [101, 120, 97, 109, 112, 108, 101, 46, 99, 111, 109] = true ∧
      443 < 65536 ∧
      from_data (write_to_buf
          (.DomainAddress [101, 120, 97, 109, 112, 108, 101, 46, 99, 111, 109] 443)) =
        .ok (.DomainAddress [101, 120, 97, 109, 112, 108, 101, 46, 99, 111, 109] 443) :=
  ⟨by decide, by decide, by decide,
    write_from_data_roundtrip.2.2 [101, 120, 97, 109, 112, 108, 101, 46, 99, 111, 109] 443
      (by decide) (by decide) (by decide)⟩

/-- C3 counterexample. `serialized_len` of a constructible `DomainAddress`
with a 256-byte name is 260, exceeding `max_serialized_len() = 259`: the
unconditional bound in the claim fails. -/
theorem serialized_len_exceeds_max_cex :
    ¬ (serialized_len (.DomainAddress (List.replicate 256 97) 80) ≤ max_serialized_len) := by
  simp only [serialized_len, max_serialized_len, List.length_replicate]
  omega

/-- C3 (amended). `serialized_len` always equals the exact number of bytes
`write_to_buf` appends — `1 + 6` for IPv4, `1 + 18` for IPv6,
`1 + 1 + name.len() + 2` for a domain — and is at most
`max_serialized_len() = 259` for every socket address and for every domain
address whose name is within the wire-format bound of 255 bytes. -/
theorem serialized_len_consistency :
    (∀ a : Address, serialized_len a = (write_to_buf a).length) ∧
    (∀ a b c d p : Nat, serialized_len (.SocketAddress (.v4 a b c d p)) = 1 + 6) ∧
    (∀ s0 s1 s2 s3 s4 s5 s6 s7 p fi sc : Nat,
      serialized_len (.SocketAddress (.v6 s0 s1 s2 s3 s4 s5 s6 s7 p fi sc)) = 1 + 18) ∧
    (∀ (name : List Nat) (p : Nat),
      serialized_len (.DomainAddress name p) = 1 + (1 + name.length + 2)) ∧
    (∀ sa : SockAddr, serialized_len (.SocketAddress sa) ≤ max_serialized_len) ∧
    (∀ (name : List Nat) (p : Nat), name.length ≤ 255 →
      serialized_len (.DomainAddress name p) ≤ max_serialized_len) := by
  refine ⟨fun a => ?_, fun _ _ _ _ _ => rfl, fun _ _ _ _ _ _ _ _ _ _ _ => rfl,
    fun _ _ => rfl, fun sa => ?_, fun name p hlen => ?_⟩
  · rcases a with sa | ⟨name, p⟩
    · rcases sa <;> simp [serialized_len, write_to_buf, put_u16]
    · simp [serialized_len, write_to_buf, put_u16, List.length_append]
      omega
  · rcases sa <;> simp [serialized_len, max_serialized_len]
  · simp only [serialized_len, max_serialized_len]
    omega

/-- C3 witness: a one-byte domain name satisfies the bound. -/
theorem serialized_len_consistency_witness :
    ([97] : List Nat).length ≤ 255 ∧
      serialized_len (.DomainAddress [97] 80) ≤ max_serialized_len :=
  ⟨by decide, serialized_len_consistency.2.2.2.2.2 [97] 80 (by decide)⟩

/-- C7 counterexample. `From<(String, u16)>` (here `from_string_port`) wraps
its arguments unchecked, so an `Address` with a 256-byte domain name is
constructible through the public constructors and violates the claimed
255-byte bound, and `write_to_buf` emits all 256 name bytes for it. -/
theorem domain_name_length_bound_cex :
    ¬ (domain_name_length (from_string_port (List.replicate 256 97) 80) ≤ 255) ∧
      (write_to_buf (from_string_port (List.replicate 256 97) 80)).length = 260 := by
  constructor
  · simp only [domain_name_length, from_string_port, List.length_replicate]
    omega
  · simp only [write_to_buf, from_string_port, put_u16, List.length_cons,
      List.length_append, List.length_replicate, List.length_nil]

/-- C7 (amended). The 255-byte name bound is not enforced by the public
constructors; it holds for every `Address` obtained by decoding: a
successful `from_data` on a byte buffer (entries are `u8` values) always
yields a name of at most 255 bytes. And whenever the name is within the
bound, `write_to_buf` emits exactly the name bytes with a correct length
byte. -/
theorem domain_name_length_bound :
    (∀ (data n : List Nat) (p : Nat), (∀ b ∈ data, b < 256) →
      from_data data = .ok (.DomainAddress n p) → n.length ≤ 255) ∧
    (∀ (name : List Nat) (p : Nat), name.length ≤ 255 →
      write_to_buf (.DomainAddress name p) = 3 :: name.length :: (name ++ put_u16 p)) := by
  constructor
  · intro data n p hb h
    rw [from_data.eq_def] at h
    split at h
    · simp at h
    · simp at h
    · rename_i len rest2
      split at h
      · split at h
        · simp only [DecodeResult.ok.injEq, Address.DomainAddress.injEq] at h
          have hlen : len < 256 := hb len (by simp)
          rw [← h.1]
          simp only [List.length_take]
          omega
        · simp at h
      · simp at h
    · simp at h
    · simp at h
    · simp at h
    · simp at h
    · simp at h
  · intro name p hlen
    simp only [write_to_buf, Nat.mod_eq_of_lt (show name.length < 256 by omega)]

/-- C7 witness: decoding `[0x03, 0x01, 0x61, 0x00, 0x50]` yields the
one-byte name `a`, within the bound, and writing it back emits exactly that
name. -/
theorem domain_name_length_bound_witness :
    (∀ b ∈ ([3, 1, 97, 0, 80] : List Nat), b < 256) ∧
      from_data [3, 1, 97, 0, 80] = .ok (.DomainAddress [97] 80) ∧
      ([97] : List Nat).length ≤ 255 ∧
      write_to_buf (.DomainAddress [97] 80) =
        3 :: ([97] : List Nat).length :: ([97] ++ put_u16 80) :=
  ⟨by decide, by decide,
    domain_name_length_bound.1 [3, 1, 97, 0, 80] [97] 80 (by decide) (by decide),
    domain_name_length_bound.2 [97] 80 (by decide)⟩

/-- C8. `TryFrom<Address> for SocketAddr` is the identity on
`SocketAddress`; on a `DomainAddress` it reinterprets the name as an IPv4
then an IPv6 literal (no DNS): `DomainAddress("203.0.113.5", 80)` converts
to the IPv4 socket address 203.0.113.5:80, while
`DomainAddress("example.com", 80)` fails with the unsupported error naming
the domain. -/
theorem try_from_address_spec :
    (∀ sa : SockAddr, try_from_address (.SocketAddress sa) = .ok sa) ∧
    try_from_address (.DomainAddress [50, 48, 51, 46, 48, 46, 49, 49, 51, 46, 53] 80) =
      .ok (.v4 203 0 113 5 80) ∧
    try_from_address (.DomainAddress [101, 120, 97, 109, 112, 108, 101, 46, 99, 111, 109] 80) =
      .error (.unsupportedDomain [101, 120, 97, 109, 112, 108, 101, 46, 99, 111, 109]) :=
  ⟨fun _ => rfl, by decide, by decide⟩

/-- C10. Trailing bytes after a complete encoding are ignored: whenever
`from_data` succeeds on a buffer, it succeeds with the same `Address` on
that buffer extended by any extra bytes (so decoding a longer buffer whose
prefix is a complete valid encoding neither fails nor changes the
result). -/
theorem trailing_bytes_ignored :
    ∀ (data extra : List Nat) (a : Address),
      from_data data = .ok a → from_data (data ++ extra) = .ok a := by
  intro data extra a h
  rw [from_data.eq_def] at h
  split at h
  · simp only [List.cons_append, from_data]
    exact h
  · simp at h
  · rename_i len rest2
    split at h
    · rename_i hc
      split at h
      · rename_i hv
        simp only [List.cons_append, from_data]
        rw [if_pos (show len + 2 ≤ (rest2 ++ extra).length by
          simp only [List.length_append]; omega)]
        rw [List.take_append_of_le_length hc]
        rw [if_pos hv]
        exact h
      · simp at h
    · simp at h
  · simp at h
  · simp only [List.cons_append, from_data]
    exact h
  · simp at h
  · simp at h
  · simp at h

/-- C10 witness: the 7-byte IPv4 encoding of 127.0.0.1:8080 decodes to the
same value with two trailing junk bytes appended. -/
theorem trailing_bytes_ignored_witness :
    from_data [1, 127, 0, 0, 1, 31, 144] = .ok (.SocketAddress (.v4 127 0 0 1 8080)) ∧
      from_data ([1, 127, 0, 0, 1, 31, 144] ++ [9, 9]) =
        .ok (.SocketAddress (.v4 127 0 0 1 8080)) :=
  ⟨by decide,
    trailing_bytes_ignored [1, 127, 0, 0, 1, 31, 144] [9, 9]
      (.SocketAddress (.v4 127 0 0 1 8080)) (by decide)⟩

end Socks5
